import Mathlib

namespace MatildaVoice

/-!
Verification of the matilda-voice provider dispatch core.

This file gives a shallow embedding, in Lean 4, of the pure decision logic
of the matilda-voice repository:

* `parse_voice_setting` (src/matilda_voice/internal/config.py),
* the provider registry and shortcut tables (src/matilda_voice/registry.py),
* `parse_provider_shortcuts` (src/matilda_voice/hooks/utils.py),
* `analyze_voice` and its pre-built indicator patterns
  (src/matilda_voice/voice_browser/voice_analyzer.py),
* the error-raising control flow of the system and Azure backends
  (src/matilda_voice/providers/system.py, providers/azure_tts.py),
* the HTTP error mapper of the error taxonomy (modelled from the spec,
  since exceptions.py is not part of the sources at hand).

Python strings are modelled as Lean `String`, scanning primitives as
executable functions on `List Char`.  Regex patterns built by the analyzer
are alternations of string literals with optional word-boundary assertions;
their `search` semantics (a match exists somewhere in the string) is
modelled by explicit position scans.
-/

/-! ## String scanning primitives (List Char based) -/

/-- `beginsWith pat l` is true iff `l` starts with the characters `pat`. -/
def beginsWith : List Char → List Char → Bool
  | [], _ => true
  | _ :: _, [] => false
  | p :: ps, c :: cs => p == c && beginsWith ps cs

/-- `occursIn pat l` is true iff `pat` occurs as a contiguous substring of
`l` (Python's `pat in l`). -/
def occursIn (pat : List Char) : List Char → Bool
  | [] => beginsWith pat []
  | c :: cs => beginsWith pat (c :: cs) || occursIn pat cs

/-- `finishesWith suf l` is true iff `l` ends with `suf`
(Python's `l.endswith(suf)`). -/
def finishesWith (suf l : List Char) : Bool :=
  beginsWith suf.reverse l.reverse

/-- `splitFirst c l` splits `l` at the first occurrence of `c`, dropping
that occurrence (the behaviour of Python's `l.split(c, 1)` when `c` occurs
in `l`).  When `c` does not occur it returns `(l, [])`; the embedded code
only uses it under a containment guard. -/
def splitFirst (c : Char) : List Char → List Char × List Char
  | [] => ([], [])
  | x :: xs =>
    if x == c then ([], xs)
    else
      let p := splitFirst c xs
      (x :: p.1, p.2)

/-- `splitChar c l` splits `l` on every occurrence of `c`
(Python's `l.split(c)`); the result always has `count c l + 1` pieces. -/
def splitChar (c : Char) : List Char → List (List Char)
  | [] => [[]]
  | x :: xs =>
    let r := splitChar c xs
    if x == c then [] :: r
    else
      match r with
      | [] => [[x]]
      | h :: t => (x :: h) :: t

/-- Substring test on `String`s (Python's `pat in s`). -/
def strContains (pat s : String) : Bool :=
  occursIn pat.toList s.toList

/-- `s.startswith(pat)` on `String`s. -/
def strBegins (pat s : String) : Bool :=
  beginsWith pat.toList s.toList

/-- `s.endswith(suf)` on `String`s. -/
def strFinishes (suf s : String) : Bool :=
  finishesWith suf.toList s.toList

/-! ## Provider registry (src/matilda_voice/registry.py) -/

/-- `PROVIDERS_REGISTRY` from registry.py, lines 1-11: canonical provider
key to importable module path. -/
def PROVIDERS_REGISTRY : List (String × String) :=
  [("azure_tts", "matilda_voice.providers.azure_tts"),
   ("edge_tts", "matilda_voice.providers.edge_tts"),
   ("openai_tts", "matilda_voice.providers.openai_tts"),
   ("elevenlabs", "matilda_voice.providers.elevenlabs"),
   ("google_tts", "matilda_voice.providers.google_tts"),
   ("chatterbox", "matilda_voice.providers.chatterbox"),
   ("coqui", "matilda_voice.providers.coqui"),
   ("system", "matilda_voice.providers.system"),
   ("hub", "matilda_voice.providers.hub")]

/-- `PROVIDER_SHORTCUTS` from registry.py, lines 13-23: short alias to
canonical provider key. -/
def PROVIDER_SHORTCUTS : List (String × String) :=
  [("azure", "azure_tts"),
   ("edge", "edge_tts"),
   ("openai", "openai_tts"),
   ("elevenlabs", "elevenlabs"),
   ("google", "google_tts"),
   ("chatterbox", "chatterbox"),
   ("coqui", "coqui"),
   ("system", "system"),
   ("hub", "hub")]

/-! ## Voice selector resolution
(src/matilda_voice/internal/config.py, `parse_voice_setting`) -/

/-- The audio file extensions of the chatterbox branch (config.py line 301). -/
def audioExtensions : List String :=
  [".wav", ".mp3", ".flac", ".ogg", ".m4a"]

/-- OpenAI short voice names (config.py line 304). -/
def openaiVoiceNames : List String :=
  ["alloy", "echo", "fable", "nova", "onyx", "shimmer"]

/-- Language prefixes of the Google branch (config.py line 307). -/
def googleLangPrefixes : List String :=
  ["en-", "es-", "fr-", "de-", "it-", "pt-", "ja-", "ko-", "zh-"]

/-- ElevenLabs short voice names (config.py line 312). -/
def elevenlabsVoiceNames : List String :=
  ["rachel", "domi", "bella", "antoni", "elli", "josh", "arnold", "adam", "sam"]

/-- Language prefixes of the edge_tts branch (config.py line 317). -/
def edgeLangPrefixes : List String :=
  ["en-", "es-", "fr-", "de-", "it-", "pt-", "ru-", "ja-", "ko-", "zh-"]

/-- `parse_voice_setting` from config.py, lines 284-325, translated
branch by branch.  Returns `(provider, voice)`; the provider is `none`
when no grammar matched. -/
def parse_voice_setting (voice_str : String) : Option String × String :=
  if voice_str.toList.contains ':' then
    let p := splitFirst ':' voice_str.toList
    (some (String.mk p.1), String.mk p.2)
  else if occursIn ['/'] voice_str.toList
      || audioExtensions.any (fun e => strFinishes e voice_str) then
    (some "chatterbox", voice_str)
  else if openaiVoiceNames.contains voice_str then
    (some "openai", voice_str)
  else if googleLangPrefixes.any (fun p => strBegins p voice_str)
      && (strContains "Neural2" voice_str || strContains "Wavenet" voice_str) then
    (some "google", voice_str)
  else if elevenlabsVoiceNames.contains voice_str then
    (some "elevenlabs", voice_str)
  else if strContains "Neural" voice_str
      || ((splitChar '-' voice_str.toList).length ≥ 3
          && edgeLangPrefixes.any (fun p => strBegins p voice_str)) then
    (some "edge_tts", voice_str)
  else
    (none, voice_str)

/-! Named rule predicates for the auto-detection heuristics, one per
branch of `parse_voice_setting`, used to state the cascade claims. -/

/-- Rule a: file path or audio extension (config.py line 301). -/
def isFilePathVoice (s : String) : Bool :=
  occursIn ['/'] s.toList || audioExtensions.any (fun e => strFinishes e s)

/-- Rule b: OpenAI short voice name (config.py line 304). -/
def isOpenaiVoice (s : String) : Bool :=
  openaiVoiceNames.contains s

/-- Rule c: Google Cloud TTS format (config.py lines 307-309). -/
def isGoogleVoice (s : String) : Bool :=
  googleLangPrefixes.any (fun p => strBegins p s)
    && (strContains "Neural2" s || strContains "Wavenet" s)

/-- Rule d: ElevenLabs short voice name (config.py line 312). -/
def isElevenlabsVoice (s : String) : Bool :=
  elevenlabsVoiceNames.contains s

/-- Rule e: edge_tts format (config.py lines 316-319). -/
def isEdgeVoice (s : String) : Bool :=
  strContains "Neural" s
    || ((splitChar '-' s.toList).length ≥ 3
        && edgeLangPrefixes.any (fun p => strBegins p s))

/-! ## Provider shortcut parsing (src/matilda_voice/hooks/utils.py) -/

/-- `parse_provider_shortcuts` from hooks/utils.py, lines 18-35.  When the
first argument starts with "@", the stripped remainder is looked up in
PROVIDER_SHORTCUTS: a hit yields the canonical provider key with the token
consumed; a miss returns the original "@"-token (as the invalid-provider
signal) with the remaining arguments. -/
def parse_provider_shortcuts (args : List String) : Option String × List String :=
  match args with
  | [] => (none, [])
  | first_arg :: rest =>
    if strBegins "@" first_arg then
      let shortcut := first_arg.drop 1
      match PROVIDER_SHORTCUTS.lookup shortcut with
      | some provider_name => (some provider_name, rest)
      | none => (some first_arg, rest)
    else (none, first_arg :: rest)

/-! ## Voice metadata analysis
(src/matilda_voice/voice_browser/voice_analyzer.py) -/

/-- Python's regex word character `\w` for the ASCII voice names handled
here: letters, digits and underscore. -/
def wordChar (c : Char) : Bool :=
  c.isAlphanum || c == '_'

/-- Assuming the literal `w` matches at the head of `l`, `trailingBoundary
w l` states that the regex word boundary holds right after that match:
the match reaches the end of the string, or the next character is not a
word character (the literal itself ends in a word character). -/
def trailingBoundary (w l : List Char) : Bool :=
  match l.drop w.length with
  | [] => true
  | c :: _ => !wordChar c

/-- Scan of `re.search` for a literal `w` preceded by a word boundary
(and, when `requireEnd` is set, followed by one).  `prevWord` records
whether the character just before the current suffix is a word character;
the literal starts with a word character, so the leading boundary holds
exactly when `prevWord` is false. -/
def boundaryScanAux (w : List Char) (requireEnd : Bool) : Bool → List Char → Bool
  | _, [] => false
  | prevWord, c :: cs =>
    (!prevWord && beginsWith w (c :: cs)
        && (!requireEnd || trailingBoundary w (c :: cs)))
      || boundaryScanAux w requireEnd (wordChar c) cs

/-- `re.search` for `\b w` (`requireEnd = false`, the "eric" pattern) or
`\b w \b` (`requireEnd = true`, the "man" pattern). -/
def boundaryMatch (w : List Char) (requireEnd : Bool) (l : List Char) : Bool :=
  boundaryScanAux w requireEnd false l

/-- `_FEMALE_INDICATORS` (voice_analyzer.py lines 11-25). -/
def _FEMALE_INDICATORS : List String :=
  ["emily", "jenny", "aria", "davis", "jane", "sarah", "amy", "emma",
   "female", "woman", "libby", "clara", "natasha"]

/-- `_MALE_INDICATORS` (voice_analyzer.py line 27). -/
def _MALE_INDICATORS : List String :=
  ["guy", "tony", "brandon", "christopher", "eric", "male", "man", "boy"]

/-- `_PROBLEMATIC_WORDS` (voice_analyzer.py line 30). -/
def _PROBLEMATIC_WORDS : List String :=
  ["man", "eric"]

/-- The search semantics of a single alternative of the combined pattern
built by `_build_indicator_regex` (voice_analyzer.py lines 56-78): "eric"
gets a leading boundary only, any other problematic word gets boundaries
on both sides, and every other indicator is a plain substring. -/
def indicatorMatch (problematic : List String) (ind : String) (l : List Char) : Bool :=
  if ind == "eric" then boundaryMatch ind.toList false l
  else if problematic.contains ind then boundaryMatch ind.toList true l
  else occursIn ind.toList l

/-- `re.search` over the combined alternation pattern: a match exists iff
some alternative matches somewhere in the string (the length-descending
sort in `_build_indicator_regex` affects which match object is returned,
never whether one exists). -/
def patternSearch (inds problematic : List String) (l : List Char) : Bool :=
  inds.any (fun ind => indicatorMatch problematic ind l)

/-- `_FEMALE_PATTERN.search(s) is not None` (voice_analyzer.py line 84). -/
def femaleSearch (l : List Char) : Bool :=
  patternSearch _FEMALE_INDICATORS _PROBLEMATIC_WORDS l

/-- `_MALE_PATTERN.search(s) is not None` (voice_analyzer.py line 85). -/
def maleSearch (l : List Char) : Bool :=
  patternSearch _MALE_INDICATORS _PROBLEMATIC_WORDS l

/-- `_REGION_MAP` (voice_analyzer.py lines 34-48), in insertion order. -/
def _REGION_MAP : List (String × String) :=
  [("en-IE", "Irish"), ("Irish", "Irish"),
   ("en-GB", "British"), ("en-UK", "British"), ("British", "British"),
   ("en-US", "American"), ("American", "American"),
   ("en-AU", "Australian"), ("Australian", "Australian"),
   ("en-CA", "Canadian"), ("Canadian", "Canadian"),
   ("en-IN", "Indian"), ("Indian", "Indian")]

/-- `_REGION_KEYS` (voice_analyzer.py line 52): the map's keys sorted by
length descending; Python's stable sort keeps insertion order within each
length group. -/
def _REGION_KEYS : List String :=
  ["Australian", "American", "Canadian", "British", "Indian",
   "en-IE", "Irish", "en-GB", "en-UK", "en-US", "en-AU", "en-CA", "en-IN"]

/-- One position of the `_REGION_PATTERN` alternation: the first region
key (in pattern order) matching at the head of `l`. -/
def regionKeyAt (l : List Char) : Option String :=
  _REGION_KEYS.find? (fun k => beginsWith k.toList l)

/-- `_REGION_PATTERN.search`: the key matched at the leftmost matching
position of the string (regex `search` tries positions left to right and,
at each position, alternatives in pattern order). -/
def regionSearch : List Char → Option String
  | [] => regionKeyAt []
  | c :: cs =>
    match regionKeyAt (c :: cs) with
    | some k => some k
    | none => regionSearch cs

/-- `analyze_voice` from voice_analyzer.py, lines 88-128, translated
clause by clause.  Returns `(quality, region, gender)`.  Python's
`voice.lower()` is modelled as a character-wise ASCII lowering; the inner
"General" default of the region lookup is unreachable, since every
pattern key is a key of `_REGION_MAP` (Python indexes the dict
directly). -/
def analyze_voice (provider voice : String) : Nat × String × String :=
  let voice_lower := voice.toList.map Char.toLower
  let quality : Nat :=
    if occursIn "neural".toList voice_lower || occursIn "premium".toList voice_lower
        || occursIn "standard".toList voice_lower then 3
    else if occursIn "basic".toList voice_lower
        || occursIn "low".toList voice_lower then 1
    else 2
  let region :=
    match regionSearch voice.toList with
    | some k =>
      match _REGION_MAP.lookup k with
      | some r => r
      | none => "General"
    | none => if provider == "chatterbox" then "Chatterbox" else "General"
  let gender :=
    if femaleSearch voice_lower then "F"
    else if maleSearch voice_lower then "M"
    else "U"
  (quality, region, gender)

/-- The region component of `analyze_voice`. -/
def regionOf (provider voice : String) : String :=
  (analyze_voice provider voice).2.1

/-- The gender component of `analyze_voice`. -/
def genderOf (provider voice : String) : String :=
  (analyze_voice provider voice).2.2

/-- The leading word-boundary condition for a match preceded by `pre`,
where `prev` tells whether the character just before `pre`'s suffix
position is a word character: either the match is at the very start
(`pre = []` and nothing word-like precedes), or the character directly
before the match is not a word character. -/
def leadOk (prev : Bool) (pre : List Char) : Prop :=
  (pre = [] ∧ prev = false) ∨ ∃ c pre2, pre = pre2 ++ [c] ∧ wordChar c = false

/-- The trailing word-boundary condition, demanded only when `req`: the
match ends the string or is followed by a non-word character. -/
def postOk (req : Bool) (post : List Char) : Prop :=
  req = true → (post = [] ∨ ∃ c post2, post = c :: post2 ∧ wordChar c = false)

/-! ## Error taxonomy and backend error control flow
(src/matilda_voice/providers/azure_tts.py, providers/system.py) -/

/-- Exception values raised and caught in the embedded backend code: the
four typed kinds of the provider contract plus the untyped Python
exception classes appearing in the modelled code paths. -/
inductive PyErr where
  | configurationError (msg : String)
  | authenticationError (msg : String)
  | networkError (msg : String)
  | providerError (msg : String)
  | valueError (msg : String)
  | osError (msg : String)
  | runtimeError (msg : String)
  | httpxRequestError (msg : String)
deriving DecidableEq

/-- True exactly for the four typed kinds of the provider contract. -/
def isTypedKind : PyErr → Bool
  | .configurationError _ => true
  | .authenticationError _ => true
  | .networkError _ => true
  | .providerError _ => true
  | _ => false

/-- True exactly for `ConfigurationError` results. -/
def resultIsConfigError (r : Except PyErr String) : Bool :=
  match r with
  | .error (.configurationError _) => true
  | _ => false

/-- The configuration and process environment read by the Azure
provider's credential accessors: the `get_setting` values and
`os.environ`. -/
structure AzureEnv where
  azure_api_key : Option String
  azure_region : Option String
  azure_endpoint : Option String
  environ : String → Option String

/-- Python truthiness of an optional string value (`if key:`). -/
def truthy : Option String → Bool
  | some s => !(s == "")
  | none => false

/-- The first truthy environment variable among `keys` (the lookup loop
shared by the Azure accessors). -/
def firstEnviron (environ : String → Option String) : List String → Option String
  | [] => none
  | k :: ks =>
    match environ k with
    | some v => if v == "" then firstEnviron environ ks else some v
    | none => firstEnviron environ ks

/-- `AzureTTSProvider._get_api_key_optional` (azure_tts.py lines 40-49). -/
def azureGetApiKeyOptional (env : AzureEnv) : Option String :=
  if truthy env.azure_api_key then env.azure_api_key
  else firstEnviron env.environ ["AZURE_API_KEY", "AZURE_SPEECH_KEY", "AZURE_TTS_KEY"]

/-- `AzureTTSProvider._get_api_key` (azure_tts.py lines 51-55): a falsy
optional key raises AuthenticationError. -/
def azureGetApiKey (env : AzureEnv) : Except PyErr String :=
  match azureGetApiKeyOptional env with
  | some k =>
    if k == "" then
      .error (.authenticationError
        "Azure API key not found. Set with: voice config set azure_api_key YOUR_KEY")
    else .ok k
  | none =>
    .error (.authenticationError
      "Azure API key not found. Set with: voice config set azure_api_key YOUR_KEY")

/-- Python's `str.rstrip("/")` on the character list. -/
def rstripSlashes (l : List Char) : List Char :=
  (l.reverse.dropWhile (fun c => c == '/')).reverse

/-- `str.rstrip("/")` on `String`s. -/
def strRstripSlash (s : String) : String :=
  String.mk (rstripSlashes s.toList)

/-- `AzureTTSProvider._get_region_optional` (azure_tts.py lines 57-66). -/
def azureGetRegionOptional (env : AzureEnv) : Option String :=
  if truthy env.azure_region then env.azure_region
  else firstEnviron env.environ ["AZURE_REGION", "AZURE_SPEECH_REGION", "AZURE_TTS_REGION"]

/-- `AzureTTSProvider._get_endpoint_optional` (azure_tts.py lines 68-80):
explicit endpoint setting, then endpoint environment variables (both
right-stripped of slashes), then a region-derived default URL. -/
def azureGetEndpointOptional (env : AzureEnv) : Option String :=
  if truthy env.azure_endpoint then
    match env.azure_endpoint with
    | some e => some (strRstripSlash e)
    | none => none
  else
    match firstEnviron env.environ
        ["AZURE_ENDPOINT", "AZURE_SPEECH_ENDPOINT", "AZURE_TTS_ENDPOINT"] with
    | some v => some (strRstripSlash v)
    | none =>
      match azureGetRegionOptional env with
      | some region => some ("https://" ++ region ++ ".tts.speech.microsoft.com")
      | none => none

/-- `AzureTTSProvider._get_endpoint` (azure_tts.py lines 82-86): a falsy
optional endpoint raises ConfigurationError. -/
def azureGetEndpoint (env : AzureEnv) : Except PyErr String :=
  match azureGetEndpointOptional env with
  | some e =>
    if e == "" then
      .error (.configurationError
        "Azure region/endpoint not set. Use azure_region or azure_endpoint.")
    else .ok e
  | none =>
    .error (.configurationError
      "Azure region/endpoint not set. Use azure_region or azure_endpoint.")

/-- The espeak command line built by `SystemTTSProvider._run_espeak`
(system.py lines 135-152). -/
def espeakCmd (text emotion : String) (voice output_path : Option String) : List String :=
  let cmd := ["espeak"]
  let cmd := cmd ++ (match voice with | some v => ["-v", v] | none => [])
  let cmd := cmd ++
    (if emotion == "excited" then ["-p", "60", "-s", "180"]
     else if emotion == "soft" then ["-p", "30", "-s", "120"]
     else if emotion == "monotone" then ["-p", "40", "-s", "150"]
     else ["-p", "50", "-s", "160"])
  let cmd := cmd ++ (match output_path with | some o => ["-w", o] | none => [])
  cmd ++ [text]

/-- `SystemTTSProvider._run_espeak` (system.py lines 128-156): nonzero
exit raises ProviderError; the subprocess is abstracted as an exit-code
function of the command line. -/
def run_espeak (run : List String → Int) (text emotion : String)
    (voice output_path : Option String) : Except PyErr Unit :=
  if run (espeakCmd text emotion voice output_path) != 0 then
    .error (.providerError "espeak synthesis failed")
  else .ok ()

/-- `SystemTTSProvider._run_festival` (system.py lines 158-161). -/
def run_festival (run : List String → Int) : Except PyErr Unit :=
  if run ["festival", "--tts"] != 0 then
    .error (.providerError "festival synthesis failed")
  else .ok ()

/-- The say command line built by `SystemTTSProvider._run_say`
(system.py lines 163-188). -/
def sayCmd (text emotion : String) (voice output_path : Option String) : List String :=
  let cmd := ["say"]
  let cmd := cmd ++
    (match voice with
     | some v => ["-v", v]
     | none =>
       if emotion == "excited" then ["-v", "Samantha"]
       else if emotion == "soft" then ["-v", "Whisper"]
       else if emotion == "monotone" then ["-v", "Ralph"]
       else [])
  let rate :=
    if emotion == "excited" then "200"
    else if emotion == "soft" then "120"
    else if emotion == "monotone" then "150"
    else "160"
  let cmd := cmd ++ ["-r", rate]
  let cmd := cmd ++ (match output_path with | some o => ["-o", o] | none => [])
  cmd ++ [text]

/-- `SystemTTSProvider._run_say` (system.py lines 163-192). -/
def run_say (run : List String → Int) (text emotion : String)
    (voice output_path : Option String) : Except PyErr Unit :=
  if run (sayCmd text emotion voice output_path) != 0 then
    .error (.providerError "say synthesis failed")
  else .ok ()

/-- The state the system backend's synthesize path depends on: the
detected engines, the subprocess exit codes, the outcome of
`convert_audio`, and the temporary file name handed out by the OS. -/
structure SysEnv where
  available_engines : List String
  run : List String → Int
  convert : Except PyErr Unit
  tmp_path : String

/-- `SystemTTSProvider._select_engine` (system.py lines 76-84). -/
def select_engine (env : SysEnv) (stream : Bool) : Option String :=
  if stream then env.available_engines.head?
  else env.available_engines.find? (fun e => e == "espeak" || e == "say")

/-- `SystemTTSProvider._speak` (system.py lines 86-96). -/
def system_speak (env : SysEnv) (engine text emotion : String)
    (voice : Option String) : Except PyErr Unit :=
  if engine == "espeak" then run_espeak env.run text emotion voice none
  else if engine == "festival" then run_festival env.run
  else if engine == "say" then run_say env.run text emotion voice none
  else .error (.providerError ("Unknown system TTS engine " ++ engine))

/-- `SystemTTSProvider._speak_to_file` (system.py lines 98-126). -/
def system_speak_to_file (env : SysEnv) (engine text emotion : String)
    (voice : Option String) (output_path output_format : String) : Except PyErr Unit :=
  if engine == "espeak" then
    if output_format == "wav" then
      run_espeak env.run text emotion voice (some output_path)
    else
      match run_espeak env.run text emotion voice (some env.tmp_path) with
      | .error e => .error e
      | .ok () => env.convert
  else if engine == "say" then
    run_say env.run text emotion voice (some output_path)
  else
    .error (.providerError ("System TTS engine " ++ engine ++ " does not support file output"))

/-- `SystemTTSProvider.synthesize` (system.py lines 41-61), translated
check by check.  Note that the missing-output-path check raises a bare
ValueError, outside any try/except. -/
def system_synthesize (env : SysEnv) (text : String) (output_path : Option String)
    (stream : Bool) (output_format : String) (voice : Option String)
    (emotion : String) : Except PyErr Unit :=
  if env.available_engines.isEmpty then
    .error (.providerError "No system TTS engines available")
  else
    match select_engine env stream with
    | none => .error (.providerError "No system TTS engines available for requested output")
    | some engine =>
      if stream then system_speak env engine text emotion voice
      else
        match output_path with
        | none => .error (.valueError "output_path is required when not streaming")
        | some p => system_speak_to_file env engine text emotion voice p output_format

/-- The except chain at the bottom of `AzureTTSProvider.synthesize`
(azure_tts.py lines 264-270): the four typed kinds re-raise unchanged;
ValueError, OSError, RuntimeError and httpx.RequestError are re-mapped by
keyword inspection of the lowercased message. -/
def azureExceptMap (r : Except PyErr Unit) : Except PyErr Unit :=
  match r with
  | .ok () => .ok ()
  | .error (.networkError m) => .error (.networkError m)
  | .error (.authenticationError m) => .error (.authenticationError m)
  | .error (.providerError m) => .error (.providerError m)
  | .error (.configurationError m) => .error (.configurationError m)
  | .error (.valueError m) | .error (.osError m)
  | .error (.runtimeError m) | .error (.httpxRequestError m) =>
    let error_str := m.toList.map Char.toLower
    if occursIn "network".toList error_str || occursIn "connection".toList error_str
        || occursIn "timeout".toList error_str || occursIn "dns".toList error_str then
      .error (.networkError ("Azure TTS request failed: " ++ m))
    else
      .error (.providerError ("Azure TTS synthesis failed: " ++ m))

/-- `AzureTTSProvider.synthesize` (azure_tts.py lines 248-270) with the
outcome of the try body abstracted as `body`: in save mode a missing
output path raises ValueError inside the try block, and every outcome
passes through the except chain. -/
def azure_synthesize (stream : Bool) (output_path : Option String)
    (body : Except PyErr Unit) : Except PyErr Unit :=
  azureExceptMap
    (if stream then body
     else
       match output_path with
       | none => .error (.valueError "output_path is required when not streaming")
       | some _ => body)

/-- An `AzureEnv` with no settings and an empty process environment. -/
def emptyAzureEnv : AzureEnv :=
  ⟨none, none, none, fun _ => none⟩

/-! ## HTTP error mapping (spec-modelled) -/

/-- `http_unauthorized` (config.py line 74). -/
def http_unauthorized : Nat := 401

/-- `http_forbidden` (config.py line 75). -/
def http_forbidden : Nat := 403

/-- `http_rate_limit` (config.py line 76). -/
def http_rate_limit : Nat := 429

/-- `http_server_error_range_start` (config.py line 78). -/
def http_server_error_range_start : Nat := 500

/-- `http_server_error_range_end` (config.py line 79); the range is
half-open in the Python idiom, so it covers statuses 500-599. -/
def http_server_error_range_end : Nat := 600

/-- Kinds of the error taxonomy (spec sections 6-7). -/
inductive ErrKind where
  | configuration
  | authentication
  | network
  | provider
deriving DecidableEq

/-- The taxonomy error shape
`{kind, message, retryable}` (spec section 6). -/
structure TaxonomyError where
  kind : ErrKind
  message : String
  retryable : Bool
deriving DecidableEq

/-- Modelled from the spec: `mapHttpError(statusCode, bodyText,
providerLabel)` of the Error Taxonomy & Mapping component (spec section
4.6); the repository implements it in its exceptions module, which is not
among the sources at hand.  Spec: 401/403 → AuthenticationError; 429 →
ProviderError marked retryable; configured server-error range (500-599
per the config defaults above) → NetworkError marked retryable; all else
→ generic ProviderError. -/
def map_http_error (status_code : Nat) (body_text : String)
    (provider_label : String) : TaxonomyError :=
  if status_code = http_unauthorized ∨ status_code = http_forbidden then
    ⟨.authentication,
      provider_label ++ " authentication failed: HTTP "
        ++ toString status_code ++ " " ++ body_text, false⟩
  else if status_code = http_rate_limit then
    ⟨.provider,
      provider_label ++ " rate limited: HTTP 429 " ++ body_text, true⟩
  else if http_server_error_range_start ≤ status_code
      ∧ status_code < http_server_error_range_end then
    ⟨.network,
      provider_label ++ " server error: HTTP "
        ++ toString status_code ++ " " ++ body_text, true⟩
  else
    ⟨.provider,
      provider_label ++ " error: HTTP "
        ++ toString status_code ++ " " ++ body_text, false⟩

/-! ### Correctness of `splitFirst` -/

theorem splitFirst_append (c : Char) (l : List Char) (h : l.contains c = true) :
    (splitFirst c l).1 ++ c :: (splitFirst c l).2 = l := by
  induction l with
  | nil => simp [List.contains] at h
  | cons x xs ih =>
    by_cases hx : x = c
    · subst hx
      simp [splitFirst]
    · have hx' : (x == c) = false := by simp [hx]
      have hmem : xs.contains c = true := by
        simp [List.contains, List.elem_cons] at h ⊢
        rcases h with h | h
        · exact absurd h.symm hx
        · exact h
      simp [splitFirst, hx', ih hmem]

theorem splitFirst_left_clean (c : Char) (l : List Char) :
    (splitFirst c l).1.contains c = false := by
  induction l with
  | nil => simp [splitFirst, List.contains]
  | cons x xs ih =>
    by_cases hx : x = c
    · subst hx
      simp [splitFirst, List.contains]
    · have hx' : (x == c) = false := by simp [hx]
      simp [splitFirst, hx', List.contains, List.elem_cons] at ih ⊢
      constructor
      · intro hcx
        exact hx hcx.symm
      · exact ih

/-! ### Claims C1-C4: voice selector resolution -/

/-- C1: for every selector string containing a ':' character,
`parse_voice_setting` splits once on the first ':' and returns the left
side verbatim as provider and the right side as voice — no auto-detection
heuristic is applied (the heuristics live entirely in the colon-free
branch). -/
theorem C1_colon_split_verbatim (s : String)
    (h : s.toList.contains ':' = true) :
    ∃ p v : String, parse_voice_setting s = (some p, v) ∧
      p.toList ++ ':' :: v.toList = s.toList ∧
      p.toList.contains ':' = false := by
  refine ⟨String.mk (splitFirst ':' s.toList).1,
    String.mk (splitFirst ':' s.toList).2, ?_, ?_, ?_⟩
  · simp only [parse_voice_setting]
    rw [if_pos h]
  · simpa using splitFirst_append ':' s.toList h
  · simpa using splitFirst_left_clean ':' s.toList

/-- Witness for C1 at the selector "x:/y.wav", whose right side looks
like a file path yet is returned verbatim. -/
theorem C1_witness :
    ∃ p v : String, parse_voice_setting "x:/y.wav" = (some p, v) ∧
      p.toList ++ ':' :: v.toList = "x:/y.wav".toList ∧
      p.toList.contains ':' = false :=
  C1_colon_split_verbatim "x:/y.wav" (by decide)

/-- C2: for every selector without ':', `parse_voice_setting` tries the
auto-detection rules in the fixed order file-path → openai names →
google format → elevenlabs names → edge_tts format, returns the first
matching rule's result, and falls back to `(none, selector)` when no
rule matches; the string "en-US-Wavenet-A" matches both the google and
the edge_tts rule and resolves to the earlier one. -/
theorem C2_auto_detect_cascade :
    (∀ s : String, s.toList.contains ':' = false →
      parse_voice_setting s =
        (if isFilePathVoice s then (some "chatterbox", s)
         else if isOpenaiVoice s then (some "openai", s)
         else if isGoogleVoice s then (some "google", s)
         else if isElevenlabsVoice s then (some "elevenlabs", s)
         else if isEdgeVoice s then (some "edge_tts", s)
         else (none, s)))
    ∧ isGoogleVoice "en-US-Wavenet-A" = true
    ∧ isEdgeVoice "en-US-Wavenet-A" = true
    ∧ parse_voice_setting "en-US-Wavenet-A" = (some "google", "en-US-Wavenet-A")
    ∧ parse_voice_setting "mystery" = (none, "mystery") := by
  refine ⟨?_, by decide, by decide, by decide, by decide⟩
  intro s h
  have h' : ¬ (s.toList.contains ':' = true) := by rw [h]; decide
  simp only [parse_voice_setting, isFilePathVoice, isOpenaiVoice, isGoogleVoice,
    isElevenlabsVoice, isEdgeVoice]
  rw [if_neg h']

/-- Witness for C2 at the selector "en-US-JennyNeural" (edge_tts rule). -/
theorem C2_witness :
    parse_voice_setting "en-US-JennyNeural" = (some "edge_tts", "en-US-JennyNeural") := by
  rw [C2_auto_detect_cascade.1 "en-US-JennyNeural" (by decide)]
  decide

/-- C3 counterexample: "x:y.wav" ends with ".wav" but, because it contains
':', resolution returns ("x", "y.wav") rather than
("chatterbox", "x:y.wav"). -/
theorem C3_counterexample :
    strFinishes ".wav" "x:y.wav" = true ∧
    parse_voice_setting "x:y.wav" ≠ (some "chatterbox", "x:y.wav") := by decide

/-- C3 (amended): for every selector without ':' that ends with one of
.wav/.mp3/.flac/.ogg/.m4a or contains '/', resolution returns
("chatterbox", selector) with the selector unchanged. -/
theorem C3_chatterbox_passthrough (s : String)
    (hc : s.toList.contains ':' = false)
    (h : occursIn ['/'] s.toList = true
         ∨ ∃ e ∈ audioExtensions, strFinishes e s = true) :
    parse_voice_setting s = (some "chatterbox", s) := by
  have hb : (occursIn ['/'] s.toList
      || audioExtensions.any (fun e => strFinishes e s)) = true := by
    rw [Bool.or_eq_true]
    rcases h with h | ⟨e, he, hef⟩
    · exact Or.inl h
    · exact Or.inr (List.any_eq_true.2 ⟨e, he, hef⟩)
  have hc' : ¬ (s.toList.contains ':' = true) := by rw [hc]; decide
  simp only [parse_voice_setting]
  rw [if_neg hc', if_pos hb]

/-- Witness for C3 (amended) at the selector "voices/clone.wav". -/
theorem C3_witness :
    parse_voice_setting "voices/clone.wav" = (some "chatterbox", "voices/clone.wav") :=
  C3_chatterbox_passthrough "voices/clone.wav" (by decide) (Or.inl (by decide))

/-- C4 counterexample: the OpenAI auto-detection branch returns the
provider string "openai", which is not a key of PROVIDERS_REGISTRY, so
the universally quantified claim fails at the selector "alloy". -/
theorem C4_counterexample :
    parse_voice_setting "alloy" = (some "openai", "alloy") ∧
    PROVIDERS_REGISTRY.lookup "openai" = none := by decide

/-- C4 (amended): the auto-detection branches of `parse_voice_setting`
return "chatterbox", "openai", "google", "elevenlabs" or "edge_tts"; of
these, "chatterbox", "elevenlabs" and "edge_tts" are keys of
PROVIDERS_REGISTRY, while "openai" and "google" are not registry keys —
they appear only as aliases in PROVIDER_SHORTCUTS, mapping to the
canonical registry keys "openai_tts" and "google_tts". -/
theorem C4_registry_keys_amended :
    parse_voice_setting "alloy" = (some "openai", "alloy") ∧
    parse_voice_setting "en-US-Wavenet-A" = (some "google", "en-US-Wavenet-A") ∧
    PROVIDERS_REGISTRY.lookup "openai" = none ∧
    PROVIDERS_REGISTRY.lookup "google" = none ∧
    PROVIDERS_REGISTRY.lookup "chatterbox" = some "matilda_voice.providers.chatterbox" ∧
    PROVIDERS_REGISTRY.lookup "elevenlabs" = some "matilda_voice.providers.elevenlabs" ∧
    PROVIDERS_REGISTRY.lookup "edge_tts" = some "matilda_voice.providers.edge_tts" ∧
    PROVIDER_SHORTCUTS.lookup "openai" = some "openai_tts" ∧
    PROVIDER_SHORTCUTS.lookup "google" = some "google_tts" ∧
    (PROVIDERS_REGISTRY.lookup "openai_tts").isSome = true ∧
    (PROVIDERS_REGISTRY.lookup "google_tts").isSome = true := by decide

/-- C8: for every non-empty argument list whose first token starts with
"@", `parse_provider_shortcuts` consumes that token and returns the
canonical provider key when the stripped remainder is a known shortcut,
and the original unmodified "@"-token when it is not; in particular
["@azure", "hello"] yields ("azure_tts", ["hello"]) and
["@nope", "hello"] yields ("@nope", ["hello"]). -/
theorem C8_shortcut_parsing :
    (∀ (first_arg : String) (rest : List String),
      strBegins "@" first_arg = true →
      (∀ canonical, PROVIDER_SHORTCUTS.lookup (first_arg.drop 1) = some canonical →
        parse_provider_shortcuts (first_arg :: rest) = (some canonical, rest)) ∧
      (PROVIDER_SHORTCUTS.lookup (first_arg.drop 1) = none →
        parse_provider_shortcuts (first_arg :: rest) = (some first_arg, rest)))
    ∧ parse_provider_shortcuts ["@azure", "hello"] = (some "azure_tts", ["hello"])
    ∧ parse_provider_shortcuts ["@nope", "hello"] = (some "@nope", ["hello"]) := by
  refine ⟨?_, by decide, by decide⟩
  intro first_arg rest h
  constructor
  · intro canonical hc
    simp [parse_provider_shortcuts, h, hc]
  · intro hc
    simp [parse_provider_shortcuts, h, hc]

/-- Witness for C8 at the argument list ["@edge", "hi"]. -/
theorem C8_witness :
    parse_provider_shortcuts ["@edge", "hi"] = (some "edge_tts", ["hi"]) :=
  ((C8_shortcut_parsing.1 "@edge" ["hi"] (by decide)).1 "edge_tts" (by decide))

/-! ### Characterization of the scanning primitives -/

theorem beginsWith_iff (pat l : List Char) :
    beginsWith pat l = true ↔ ∃ post, l = pat ++ post := by
  induction pat generalizing l with
  | nil => simp [beginsWith]
  | cons p ps ih =>
    cases l with
    | nil => simp [beginsWith]
    | cons c cs =>
      simp only [beginsWith, Bool.and_eq_true, beq_iff_eq, ih, List.cons_append,
        List.cons.injEq]
      constructor
      · rintro ⟨rfl, post, rfl⟩
        exact ⟨post, rfl, rfl⟩
      · rintro ⟨post, rfl, rfl⟩
        exact ⟨rfl, post, rfl⟩

theorem occursIn_iff (pat l : List Char) :
    occursIn pat l = true ↔ ∃ pre post, l = pre ++ pat ++ post := by
  induction l with
  | nil =>
    simp only [occursIn, beginsWith_iff]
    constructor
    · rintro ⟨post, h⟩
      exact ⟨[], post, by simpa using h⟩
    · rintro ⟨pre, post, h⟩
      obtain ⟨h1, h2, h3⟩ :
          pre = [] ∧ pat = [] ∧ post = [] := by simpa using h.symm
      exact ⟨[], by simp [h2, h3]⟩
  | cons c cs ih =>
    simp only [occursIn, Bool.or_eq_true, beginsWith_iff, ih]
    constructor
    · rintro (⟨post, h⟩ | ⟨pre, post, h⟩)
      · exact ⟨[], post, by simpa using h⟩
      · exact ⟨c :: pre, post, by simp [h]⟩
    · rintro ⟨pre, post, h⟩
      cases pre with
      | nil => exact Or.inl ⟨post, by simpa using h⟩
      | cons p ps =>
        rcases List.cons.injEq .. ▸ h with ⟨_, h2⟩
        exact Or.inr ⟨ps, post, by simpa using h2⟩

theorem trailingBoundary_append (w post : List Char) :
    trailingBoundary w (w ++ post) =
      (match post with | [] => true | c :: _ => !wordChar c) := by
  have hdrop : (w ++ post).drop w.length = post := List.drop_left w post
  simp [trailingBoundary, hdrop]

theorem boundaryScanAux_iff (w : List Char) (hw : w ≠ []) (req : Bool)
    (l : List Char) (prev : Bool) :
    boundaryScanAux w req prev l = true ↔
      ∃ pre post, l = pre ++ w ++ post ∧ leadOk prev pre ∧ postOk req post := by
  induction l generalizing prev with
  | nil =>
    simp only [boundaryScanAux]
    constructor
    · intro h
      exact absurd h (by simp)
    · rintro ⟨pre, post, hl, _, _⟩
      obtain ⟨-, h2, -⟩ : pre = [] ∧ w = [] ∧ post = [] := by simpa using hl.symm
      exact absurd h2 hw
  | cons c cs ih =>
    simp only [boundaryScanAux, Bool.or_eq_true, Bool.and_eq_true, Bool.not_eq_true']
    constructor
    · rintro (⟨⟨hprev, hbw⟩, hreq⟩ | hrec)
      · obtain ⟨post, hpost⟩ := (beginsWith_iff w (c :: cs)).1 hbw
        refine ⟨[], post, by simpa using hpost, Or.inl ⟨rfl, hprev⟩, ?_⟩
        intro hr
        subst hr
        rcases hreq with hreq | hreq
        · simp at hreq
        · rw [hpost, trailingBoundary_append] at hreq
          cases post with
          | nil => exact Or.inl rfl
          | cons d ds =>
            refine Or.inr ⟨d, ds, rfl, ?_⟩
            simpa using hreq
      · obtain ⟨pre, post, hcs, hlead, hpost⟩ := (ih (wordChar c)).1 hrec
        refine ⟨c :: pre, post, by simp [hcs], ?_, hpost⟩
        rcases hlead with ⟨rfl, hpc⟩ | ⟨d, pre2, rfl, hd⟩
        · exact Or.inr ⟨c, [], by simp, hpc⟩
        · exact Or.inr ⟨d, c :: pre2, by simp, hd⟩
    · rintro ⟨pre, post, hl, hlead, hpost⟩
      cases pre with
      | nil =>
        left
        simp only [List.nil_append] at hl
        rcases hlead with ⟨-, hprev⟩ | ⟨d, pre2, hpre2, -⟩
        · refine ⟨⟨hprev, (beginsWith_iff w (c :: cs)).2 ⟨post, hl⟩⟩, ?_⟩
          cases req with
          | false => exact Or.inl rfl
          | true =>
            right
            rw [hl, trailingBoundary_append]
            rcases hpost rfl with rfl | ⟨d, ds, rfl, hd⟩
            · rfl
            · simpa using hd
        · exact absurd hpre2.symm (by simp)
      | cons p ps =>
        right
        obtain ⟨rfl, hcs⟩ : p = c ∧ cs = ps ++ w ++ post := by
          have := hl
          simp only [List.cons_append, List.cons.injEq] at this
          exact ⟨this.1.symm, this.2⟩
        refine (ih (wordChar p)).2 ⟨ps, post, hcs, ?_, hpost⟩
        rcases hlead with ⟨hnil, -⟩ | ⟨d, pre2, hpre2, hd⟩
        · exact absurd hnil (by simp)
        · cases pre2 with
          | nil =>
            obtain ⟨rfl, rfl⟩ : d = p ∧ ps = [] := by
              have := hpre2
              simp only [List.nil_append, List.cons.injEq] at this
              exact ⟨this.1.symm, this.2⟩
            exact Or.inl ⟨rfl, hd⟩
          | cons q qs =>
            obtain ⟨rfl, hps⟩ : q = p ∧ ps = qs ++ [d] := by
              have := hpre2
              simp only [List.cons_append, List.cons.injEq] at this
              exact ⟨this.1.symm, this.2⟩
            exact Or.inr ⟨d, qs, hps, hd⟩

/-- The `\b`-anchored pattern search matches iff the string decomposes
around an occurrence of the literal whose left neighbour (if any) is a
non-word character, and — when a trailing boundary is required — whose
right neighbour (if any) is a non-word character too. -/
theorem boundaryMatch_iff (w : List Char) (hw : w ≠ []) (req : Bool) (l : List Char) :
    boundaryMatch w req l = true ↔
      ∃ pre post, l = pre ++ w ++ post ∧
        (pre = [] ∨ ∃ c pre2, pre = pre2 ++ [c] ∧ wordChar c = false) ∧
        postOk req post := by
  rw [boundaryMatch, boundaryScanAux_iff w hw req l false]
  constructor
  · rintro ⟨pre, post, hl, hlead, hpost⟩
    refine ⟨pre, post, hl, ?_, hpost⟩
    rcases hlead with ⟨rfl, -⟩ | h
    · exact Or.inl rfl
    · exact Or.inr h
  · rintro ⟨pre, post, hl, hlead, hpost⟩
    refine ⟨pre, post, hl, ?_, hpost⟩
    rcases hlead with rfl | h
    · exact Or.inl ⟨rfl, rfl⟩
    · exact Or.inr h

/-! ### Characterization of the region scan -/

theorem beginsWith_refl (l : List Char) : beginsWith l l = true :=
  (beginsWith_iff l l).2 ⟨[], by simp⟩

/-- Two literals matching at the same position: the shorter is a prefix of
the longer. -/
theorem beginsWith_of_common (a b l : List Char)
    (ha : beginsWith a l = true) (hb : beginsWith b l = true)
    (hlen : a.length ≤ b.length) : beginsWith a b = true := by
  obtain ⟨p, hp⟩ := (beginsWith_iff a l).1 ha
  obtain ⟨q, hq⟩ := (beginsWith_iff b l).1 hb
  rw [hp] at hq
  rcases List.append_eq_append_iff.1 hq with ⟨a', hb', -⟩ | ⟨c', hac, -⟩
  · exact (beginsWith_iff a b).2 ⟨a', hb'⟩
  · have hlena : a.length = b.length + c'.length := by
      rw [hac, List.length_append]
    have hc : c' = [] := List.length_eq_zero.1 (by omega)
    rw [hac, hc, List.append_nil]
    exact beginsWith_refl b

/-- No region key is a prefix of a different region key. -/
theorem regionKeys_prefix_free :
    ∀ k1 ∈ _REGION_KEYS, ∀ k2 ∈ _REGION_KEYS,
      beginsWith k1.toList k2.toList = true → k1 = k2 := by decide

/-- Every region-pattern key is a non-empty literal. -/
theorem regionKeys_ne_nil : ∀ k ∈ _REGION_KEYS, k.toList ≠ [] := by decide

/-- Every region-pattern key has an entry in `_REGION_MAP`. -/
theorem regionKeys_covered :
    ∀ k ∈ _REGION_KEYS, (_REGION_MAP.lookup k).isSome = true := by decide

/-- At a fixed position, at most one region key can match, so `find?` in
pattern order returns exactly the matching key. -/
theorem regionKeyAt_eq_of_match (l : List Char) (k : String)
    (hk : k ∈ _REGION_KEYS) (hm : beginsWith k.toList l = true) :
    regionKeyAt l = some k := by
  have hsome : (regionKeyAt l).isSome = true := by
    rw [regionKeyAt, List.find?_isSome]
    exact ⟨k, hk, hm⟩
  obtain ⟨k0, hk0⟩ := Option.isSome_iff_exists.1 hsome
  have hk0' : List.find? (fun k2 => beginsWith k2.toList l) _REGION_KEYS = some k0 := hk0
  have hk0mem : k0 ∈ _REGION_KEYS := List.mem_of_find?_eq_some hk0'
  have hk0m : beginsWith k0.toList l = true := by
    have hqq := List.find?_some hk0'
    exact hqq
  rcases Nat.le_total k0.toList.length k.toList.length with hle | hle
  · have hpre := beginsWith_of_common k0.toList k.toList l hk0m hm hle
    have hEq : k0 = k := regionKeys_prefix_free k0 hk0mem k hk hpre
    rw [← hEq]
    exact hk0
  · have hpre := beginsWith_of_common k.toList k0.toList l hm hk0m hle
    have hEq : k = k0 := regionKeys_prefix_free k hk k0 hk0mem hpre
    rw [hEq]
    exact hk0

/-- The scan returns `none` exactly when no region key occurs anywhere in
the string. -/
theorem regionSearch_none_iff (l : List Char) :
    regionSearch l = none ↔
      ∀ k ∈ _REGION_KEYS, occursIn k.toList l = false := by
  induction l with
  | nil =>
    constructor
    · intro _
      decide
    · intro _
      decide
  | cons c cs ih =>
    simp only [regionSearch]
    constructor
    · intro h k hk
      have hat : regionKeyAt (c :: cs) = none := by
        cases hfind : regionKeyAt (c :: cs) with
        | none => rfl
        | some k0 =>
          rw [hfind] at h
          exact absurd h (by simp)
      rw [hat] at h
      have hnotbegin : beginsWith k.toList (c :: cs) = false := by
        have hfa : ¬ beginsWith k.toList (c :: cs) = true := by
          have := List.find?_eq_none.1 hat k hk
          exact this
        exact Bool.not_eq_true _ ▸ hfa
      have hrest : occursIn k.toList cs = false := ih.1 h k hk
      show (beginsWith k.toList (c :: cs) || occursIn k.toList cs) = false
      rw [hnotbegin, hrest]
      rfl
    · intro h
      have hat : regionKeyAt (c :: cs) = none := by
        rw [regionKeyAt, List.find?_eq_none]
        intro k hk
        have hocc := h k hk
        have hsplit : (beginsWith k.toList (c :: cs) || occursIn k.toList cs) = false := hocc
        intro hcontra
        rw [(Bool.or_eq_false_iff.1 hsplit).1] at hcontra
        exact Bool.false_ne_true hcontra
      rw [hat]
      refine ih.2 ?_
      intro k hk
      have hsplit : (beginsWith k.toList (c :: cs) || occursIn k.toList cs) = false :=
        h k hk
      exact (Bool.or_eq_false_iff.1 hsplit).2

/-- If the literal `k` matches at position `i` and no region key matches
at any earlier position, the scan returns `k`: the leftmost marker wins,
and within one position the pattern order is irrelevant because the keys
are prefix-free. -/
theorem regionSearch_leftmost (k : String) (hk : k ∈ _REGION_KEYS) :
    ∀ (i : Nat) (l : List Char),
      beginsWith k.toList (l.drop i) = true →
      (∀ j, j < i → ∀ k2 ∈ _REGION_KEYS,
        beginsWith k2.toList (l.drop j) = false) →
      regionSearch l = some k := by
  intro i
  induction i with
  | zero =>
    intro l hm _
    simp only [List.drop_zero] at hm
    cases l with
    | nil =>
      cases hkl : k.toList with
      | nil => exact absurd hkl (regionKeys_ne_nil k hk)
      | cons a as =>
        rw [hkl] at hm
        simp only [beginsWith] at hm
        exact absurd hm (by decide)
    | cons c cs =>
      simp only [regionSearch, regionKeyAt_eq_of_match (c :: cs) k hk hm]
  | succ i ih =>
    intro l hm hnone
    cases l with
    | nil =>
      simp only [List.drop_nil] at hm
      cases hkl : k.toList with
      | nil => exact absurd hkl (regionKeys_ne_nil k hk)
      | cons a as =>
        rw [hkl] at hm
        simp only [beginsWith] at hm
        exact absurd hm (by decide)
    | cons c cs =>
      have h0 : regionKeyAt (c :: cs) = none := by
        rw [regionKeyAt, List.find?_eq_none]
        intro k2 hk2
        have hf := hnone 0 (Nat.zero_lt_succ i) k2 hk2
        simp only [List.drop_zero] at hf
        intro hcontra
        rw [hf] at hcontra
        exact Bool.false_ne_true hcontra
      simp only [regionSearch, h0]
      exact ih cs hm (fun j hj k2 hk2 => hnone (j + 1) (Nat.succ_lt_succ hj) k2 hk2)

/-! ### Claims C6 and C7: voice metadata analysis -/

/-- C6: gender analysis matches non-problematic indicators as plain
substrings of the lowercased name, while "man" carries word boundaries on
both sides and "eric" a leading word boundary only; the female pattern is
checked before the male pattern, no match yields "U"; consequently
"superman-voice" and "generic-voice" and "american" yield "U" while
"voice-man", "EricNeural" and "voice-eric-neural" yield "M". -/
theorem C6_gender_boundary_rules :
    (∀ w l, _PROBLEMATIC_WORDS.contains w = false →
        indicatorMatch _PROBLEMATIC_WORDS w l = occursIn w.toList l)
    ∧ (∀ l, indicatorMatch _PROBLEMATIC_WORDS "man" l
        = boundaryMatch "man".toList true l)
    ∧ (∀ l, indicatorMatch _PROBLEMATIC_WORDS "eric" l
        = boundaryMatch "eric".toList false l)
    ∧ (∀ l, boundaryMatch "man".toList true l = true ↔
        ∃ pre post, l = pre ++ "man".toList ++ post ∧
          (pre = [] ∨ ∃ c pre2, pre = pre2 ++ [c] ∧ wordChar c = false) ∧
          (post = [] ∨ ∃ c post2, post = c :: post2 ∧ wordChar c = false))
    ∧ (∀ l, boundaryMatch "eric".toList false l = true ↔
        ∃ pre post, l = pre ++ "eric".toList ++ post ∧
          (pre = [] ∨ ∃ c pre2, pre = pre2 ++ [c] ∧ wordChar c = false))
    ∧ (∀ p v, femaleSearch (v.toList.map Char.toLower) = true →
        genderOf p v = "F")
    ∧ (∀ p v, femaleSearch (v.toList.map Char.toLower) = false →
        maleSearch (v.toList.map Char.toLower) = true → genderOf p v = "M")
    ∧ (∀ p v, femaleSearch (v.toList.map Char.toLower) = false →
        maleSearch (v.toList.map Char.toLower) = false → genderOf p v = "U")
    ∧ genderOf "p" "superman-voice" = "U"
    ∧ genderOf "p" "voice-man" = "M"
    ∧ genderOf "p" "EricNeural" = "M"
    ∧ genderOf "p" "voice-eric-neural" = "M"
    ∧ genderOf "p" "generic-voice" = "U"
    ∧ genderOf "p" "american" = "U" := by
  refine ⟨?_, fun l => rfl, fun l => rfl, ?_, ?_, ?_, ?_, ?_,
    by decide, by decide, by decide, by decide, by decide, by decide⟩
  · intro w l h
    have h1 : ¬ ((w == "eric") = true) := by
      intro hb
      have hw : w = "eric" := by simpa using hb
      rw [hw] at h
      exact absurd h (by decide)
    have h2 : ¬ (_PROBLEMATIC_WORDS.contains w = true) := by
      rw [h]
      decide
    simp only [indicatorMatch]
    rw [if_neg h1, if_neg h2]
  · intro l
    rw [boundaryMatch_iff "man".toList (by decide) true l]
    constructor
    · rintro ⟨pre, post, hl, hlead, hpost⟩
      exact ⟨pre, post, hl, hlead, hpost rfl⟩
    · rintro ⟨pre, post, hl, hlead, hpost⟩
      exact ⟨pre, post, hl, hlead, fun _ => hpost⟩
  · intro l
    rw [boundaryMatch_iff "eric".toList (by decide) false l]
    constructor
    · rintro ⟨pre, post, hl, hlead, -⟩
      exact ⟨pre, post, hl, hlead⟩
    · rintro ⟨pre, post, hl, hlead⟩
      exact ⟨pre, post, hl, hlead, fun hcontra => absurd hcontra (by decide)⟩
  · intro p v h
    simp only [String.toList] at h
    simp [genderOf, analyze_voice, h]
  · intro p v hf hm
    simp only [String.toList] at hf hm
    simp [genderOf, analyze_voice, hf, hm]
  · intro p v hf hm
    simp only [String.toList] at hf hm
    simp [genderOf, analyze_voice, hf, hm]

/-- Witness for C6: the female-priority and male clauses applied at
concrete voices. -/
theorem C6_witness :
    genderOf "edge_tts" "en-US-GuyNeural" = "M" ∧
    genderOf "edge_tts" "en-US-JennyNeural" = "F" := by
  constructor
  · exact C6_gender_boundary_rules.2.2.2.2.2.2.1 "edge_tts" "en-US-GuyNeural"
      (by decide) (by decide)
  · exact C6_gender_boundary_rules.2.2.2.2.2.1 "edge_tts" "en-US-JennyNeural"
      (by decide)

/-- C7: region analysis returns the region of the marker at the leftmost
matching position of the original-case name (the configured
length-descending pattern order only disambiguates within one position,
where the prefix-free marker set admits a single match); when no marker
occurs anywhere the result is "Chatterbox" for the chatterbox provider
and "General" otherwise. -/
theorem C7_region_first_marker :
    (∀ p v k i, k ∈ _REGION_KEYS →
      beginsWith k.toList (v.toList.drop i) = true →
      (∀ j, j < i → ∀ k2 ∈ _REGION_KEYS,
        beginsWith k2.toList (v.toList.drop j) = false) →
      ∃ r, _REGION_MAP.lookup k = some r ∧ regionOf p v = r)
    ∧ (∀ p v, (∀ k ∈ _REGION_KEYS, occursIn k.toList v.toList = false) →
        regionOf p v = if p == "chatterbox" then "Chatterbox" else "General")
    ∧ regionOf "edge_tts" "en-US-JennyNeural" = "American"
    ∧ regionOf "x" "en-CA-Irish-Australian" = "Canadian"
    ∧ regionOf "edge_tts" "IrishAustralian" = "Irish"
    ∧ regionOf "chatterbox" "myvoice" = "Chatterbox"
    ∧ regionOf "edge_tts" "myvoice" = "General" := by
  refine ⟨?_, ?_, by decide, by decide, by decide, by decide, by decide⟩
  · intro p v k i hk hm hnone
    have hs : regionSearch v.toList = some k :=
      regionSearch_leftmost k hk i v.toList hm hnone
    obtain ⟨r, hr⟩ := Option.isSome_iff_exists.1 (regionKeys_covered k hk)
    refine ⟨r, hr, ?_⟩
    simp only [String.toList] at hs
    simp [regionOf, analyze_voice, hs, hr]
  · intro p v h
    have hs : regionSearch v.toList = none := (regionSearch_none_iff v.toList).2 h
    simp only [String.toList] at hs
    simp [regionOf, analyze_voice, hs]

/-- Witness for C7: the leftmost-marker clause applied at
"en-US-JennyNeural" (marker "en-US" at position 0) and the fallback
clause at a marker-free name. -/
theorem C7_witness :
    (∃ r, _REGION_MAP.lookup "en-US" = some r ∧
      regionOf "edge_tts" "en-US-JennyNeural" = r) ∧
    regionOf "chatterbox" "zzz" = (if ("chatterbox" == "chatterbox") then "Chatterbox" else "General") := by
  constructor
  · exact C7_region_first_marker.1 "edge_tts" "en-US-JennyNeural" "en-US" 0
      (by decide) (by decide) (fun j hj => absurd hj (Nat.not_lt_zero j))
  · exact C7_region_first_marker.2.1 "chatterbox" "zzz" (by decide)

/-! ### Claims C5, C9 and C10: error kinds -/

/-- C5 counterexample: with the Azure API key absent from both settings
and environment, `_get_api_key` raises AuthenticationError — not the
ConfigurationError the claim requires for absent credentials. -/
theorem C5_counterexample :
    azureGetApiKeyOptional emptyAzureEnv = none ∧
    azureGetApiKey emptyAzureEnv
      = .error (.authenticationError
          "Azure API key not found. Set with: voice config set azure_api_key YOUR_KEY") ∧
    resultIsConfigError (azureGetApiKey emptyAzureEnv) = false :=
  ⟨rfl, rfl, rfl⟩

/-- C5 (amended): when the Azure API key is absent from both settings and
environment, synthesize-path credential lookup fails with
AuthenticationError; a missing region/endpoint fails with
ConfigurationError; and a nonzero-exit espeak subprocess fails with
ProviderError. -/
theorem C5_error_kinds_amended :
    (∀ env : AzureEnv, azureGetApiKeyOptional env = none →
      azureGetApiKey env = .error (.authenticationError
        "Azure API key not found. Set with: voice config set azure_api_key YOUR_KEY"))
    ∧ (∀ env : AzureEnv, azureGetEndpointOptional env = none →
      azureGetEndpoint env = .error (.configurationError
        "Azure region/endpoint not set. Use azure_region or azure_endpoint."))
    ∧ (∀ (run : List String → Int) (text emotion : String)
        (voice output_path : Option String),
      run (espeakCmd text emotion voice output_path) ≠ 0 →
      run_espeak run text emotion voice output_path
        = .error (.providerError "espeak synthesis failed")) := by
  refine ⟨?_, ?_, ?_⟩
  · intro env h
    simp [azureGetApiKey, h]
  · intro env h
    simp [azureGetEndpoint, h]
  · intro run text emotion voice output_path h
    have hb : (run (espeakCmd text emotion voice output_path) != 0) = true := by
      simpa using h
    simp [run_espeak, hb]

/-- Witness for C5 (amended) at the empty environment and an exit code
of 1. -/
theorem C5_witness :
    azureGetApiKey emptyAzureEnv = .error (.authenticationError
      "Azure API key not found. Set with: voice config set azure_api_key YOUR_KEY") ∧
    azureGetEndpoint emptyAzureEnv = .error (.configurationError
      "Azure region/endpoint not set. Use azure_region or azure_endpoint.") ∧
    run_espeak (fun _ => 1) "hi" "normal" none none
      = .error (.providerError "espeak synthesis failed") :=
  ⟨C5_error_kinds_amended.1 emptyAzureEnv rfl,
   C5_error_kinds_amended.2.1 emptyAzureEnv rfl,
   C5_error_kinds_amended.2.2 (fun _ => 1) "hi" "normal" none none (by decide)⟩

/-- C9 counterexample: the system backend's synthesize, with an espeak
engine available, stream=False and output_path=None, surfaces a bare
ValueError — an untyped error kind. -/
theorem C9_counterexample :
    system_synthesize ⟨["espeak"], fun _ => 0, .ok (), "t.wav"⟩
        "hello" none false "wav" none "normal"
      = .error (.valueError "output_path is required when not streaming") ∧
    isTypedKind (.valueError "output_path is required when not streaming") = false :=
  ⟨rfl, rfl⟩

/-- C9 (amended): the Azure backend's synthesize re-maps every escaping
exception of the caught classes into one of the four typed kinds (its
own missing-output-path ValueError becomes a ProviderError), while the
system backend's synthesize with stream=False and output_path=None
surfaces a bare untyped ValueError whenever a file-capable engine is
selected. -/
theorem C9_typed_errors_amended :
    (∀ (r : Except PyErr Unit) (e : PyErr),
      azureExceptMap r = .error e → isTypedKind e = true)
    ∧ (∀ (stream : Bool) (output_path : Option String)
        (body : Except PyErr Unit) (e : PyErr),
      azure_synthesize stream output_path body = .error e → isTypedKind e = true)
    ∧ azure_synthesize false none (.ok ())
      = .error (.providerError
          "Azure TTS synthesis failed: output_path is required when not streaming")
    ∧ (∀ (env : SysEnv) (text output_format emotion : String) (voice : Option String),
      env.available_engines ≠ [] →
      (select_engine env false).isSome = true →
      system_synthesize env text none false output_format voice emotion
        = .error (.valueError "output_path is required when not streaming")) := by
  have hmap : ∀ (r : Except PyErr Unit) (e : PyErr),
      azureExceptMap r = .error e → isTypedKind e = true := by
    intro r e h
    cases r with
    | ok u =>
      cases u
      exact absurd h (by simp [azureExceptMap])
    | error e0 =>
      cases e0 <;> simp only [azureExceptMap] at h <;>
        first
        | (injection h with h2; rw [← h2]; rfl)
        | (split at h <;> (injection h with h2; rw [← h2]; rfl))
  refine ⟨hmap, fun stream output_path body e h => hmap _ e h, rfl, ?_⟩
  intro env text output_format emotion voice hne hsel
  have hempty : env.available_engines.isEmpty = false := by
    cases heng : env.available_engines with
    | nil => exact absurd heng hne
    | cons a as => simp [heng]
  obtain ⟨engine, hengine⟩ := Option.isSome_iff_exists.1 hsel
  simp [system_synthesize, hempty, hengine]

/-- Witness for C9 (amended): the Azure re-mapping applied to an escaping
OSError whose message mentions the connection, and the system ValueError
clause at a two-engine environment. -/
theorem C9_witness :
    (∃ e, azure_synthesize true none (.error (.osError "connection lost"))
        = .error e ∧ isTypedKind e = true) ∧
    system_synthesize ⟨["say", "espeak"], fun _ => 0, .ok (), "u.wav"⟩
        "hi" none false "mp3" none "excited"
      = .error (.valueError "output_path is required when not streaming") := by
  constructor
  · refine ⟨PyErr.networkError "Azure TTS request failed: connection lost", rfl, ?_⟩
    exact C9_typed_errors_amended.2.1 true none
      (.error (.osError "connection lost")) _ rfl
  · exact C9_typed_errors_amended.2.2.2
      ⟨["say", "espeak"], fun _ => 0, .ok (), "u.wav"⟩
      "hi" "mp3" "excited" none (by decide) (by decide)

/-- C10: the spec-modelled HTTP error mapper returns AuthenticationError
for 401/403, a retryable ProviderError for 429, a retryable NetworkError
for every status in the configured 500-599 server-error range, and a
non-retryable generic ProviderError for every other status. -/
theorem C10_http_error_mapping (status : Nat) (body label : String) :
    ((status = 401 ∨ status = 403) →
      (map_http_error status body label).kind = ErrKind.authentication ∧
      (map_http_error status body label).retryable = false)
    ∧ (status = 429 →
      (map_http_error status body label).kind = ErrKind.provider ∧
      (map_http_error status body label).retryable = true)
    ∧ (500 ≤ status ∧ status ≤ 599 →
      (map_http_error status body label).kind = ErrKind.network ∧
      (map_http_error status body label).retryable = true)
    ∧ (status ≠ 401 → status ≠ 403 → status ≠ 429 → ¬(500 ≤ status ∧ status ≤ 599) →
      (map_http_error status body label).kind = ErrKind.provider ∧
      (map_http_error status body label).retryable = false) := by
  refine ⟨?_, ?_, ?_, ?_⟩
  · rintro (rfl | rfl) <;> exact ⟨rfl, rfl⟩
  · rintro rfl
    exact ⟨rfl, rfl⟩
  · rintro ⟨h1, h2⟩
    have hn1 : ¬(status = http_unauthorized ∨ status = http_forbidden) := by
      simp only [http_unauthorized, http_forbidden]
      omega
    have hn2 : ¬(status = http_rate_limit) := by
      simp only [http_rate_limit]
      omega
    have hp : http_server_error_range_start ≤ status
        ∧ status < http_server_error_range_end := by
      simp only [http_server_error_range_start, http_server_error_range_end]
      omega
    rw [map_http_error, if_neg hn1, if_neg hn2, if_pos hp]
    exact ⟨rfl, rfl⟩
  · intro h1 h2 h3 h4
    have hn1 : ¬(status = http_unauthorized ∨ status = http_forbidden) := by
      simp only [http_unauthorized, http_forbidden]
      omega
    have hn2 : ¬(status = http_rate_limit) := by
      simp only [http_rate_limit]
      omega
    have hn3 : ¬(http_server_error_range_start ≤ status
        ∧ status < http_server_error_range_end) := by
      simp only [http_server_error_range_start, http_server_error_range_end]
      omega
    rw [map_http_error, if_neg hn1, if_neg hn2, if_neg hn3]
    exact ⟨rfl, rfl⟩

/-- Witness for C10 at statuses 403, 429, 503 and 404. -/
theorem C10_witness :
    ((map_http_error 403 "" "X").kind = ErrKind.authentication ∧
      (map_http_error 403 "" "X").retryable = false) ∧
    ((map_http_error 429 "" "X").kind = ErrKind.provider ∧
      (map_http_error 429 "" "X").retryable = true) ∧
    ((map_http_error 503 "" "X").kind = ErrKind.network ∧
      (map_http_error 503 "" "X").retryable = true) ∧
    ((map_http_error 404 "" "X").kind = ErrKind.provider ∧
      (map_http_error 404 "" "X").retryable = false) :=
  ⟨(C10_http_error_mapping 403 "" "X").1 (Or.inr rfl),
   (C10_http_error_mapping 429 "" "X").2.1 rfl,
   (C10_http_error_mapping 503 "" "X").2.2.1 (by omega),
   (C10_http_error_mapping 404 "" "X").2.2.2 (by omega) (by omega) (by omega) (by omega)⟩

end MatildaVoice
